import Mathlib

/-!
Verification of the image compositing engine in src/utils/imageProcessor.ts.

The drawing surface is modelled as the trace of canvas operations issued by
the code, over exact rationals.  Rotation semantics over the reals is given
by a separate interpretation layer.  External effects are modelled as
parameters: whether an image reference decodes is a Boolean field of the
photo record, and the text-measuring facility of the canvas context is a
function parameter.
-/

namespace ImageProcessor

/-- Modelled from the spec: the per-photo affine adjustment
`{ rotationDegrees, scale, offset }`; field names follow the usage sites in
imageProcessor.ts (`transform.rotation`, `transform.scale`,
`transform.position.x/y`).  The declaring file src/types.ts is not part of
the sources. -/
structure Offset where
  x : ℚ
  y : ℚ
deriving DecidableEq, Repr

/-- Modelled from the spec: rotation in degrees, uniform scale factor and a
translation applied in the rotated-and-scaled frame. -/
structure Transform where
  rotation : ℚ
  scale : ℚ
  position : Offset
deriving DecidableEq, Repr

/-- Modelled from the spec: one source photo.  `name` is the filename,
`preview` the raster reference handed to the Image element, `width` and
`height` the natural pixel dimensions of the decoded raster, and `decodes`
records whether the external decode succeeds (the onload versus onerror
outcome of the environment). -/
structure FileData where
  name : String
  preview : String
  width : ℚ
  height : ℚ
  decodes : Bool
  transform : Option Transform
deriving DecidableEq, Repr

/-- Modelled from the spec: the four anchored label positions. -/
inductive TextPosition where
  | topLeft
  | topRight
  | bottomLeft
  | bottomRight
deriving DecidableEq, Repr

/-- Modelled from the spec: label options.  Absent strings are modelled by
the empty string and an absent stroke width by 0, matching JavaScript
falsiness at every `x || y` use site in the code. -/
structure TextOptions where
  enabled : Bool
  text : String
  font : String
  size : ℚ
  bold : Bool
  italic : Bool
  color : String
  position : TextPosition
  stroke : Bool
  strokeColor : String
  strokeWidth : ℚ
deriving DecidableEq, Repr

/-- JavaScript `a || b` on strings: the empty string is falsy. -/
def strOr (a b : String) : String := if a = "" then b else a

/-- JavaScript `a || b` on numbers: zero is falsy. -/
def numOr (a b : ℚ) : ℚ := if a = 0 then b else a

/-- One operation issued on the 2d canvas context.  The `rotateDeg`
constructor records the degree argument of the source call
`ctx.rotate((transform.rotation * Math.PI) / 180)`; its radian semantics is
given by `applyOp`. -/
inductive CanvasOp where
  | setFillStyle (c : String)
  | fillRect (x y w h : ℚ)
  | save
  | translate (dx dy : ℚ)
  | rotateDeg (deg : ℚ)
  | scaleBy (s : ℚ)
  | drawImg (src : String) (x y w h : ℚ)
  | restore
  | setFont (f : String)
  | setStrokeStyle (c : String)
  | setLineWidth (w : ℚ)
  | strokeText (t : String) (x y : ℚ)
  | fillText (t : String) (x y : ℚ)
deriving DecidableEq, Repr

/-- Splitting loop of String.prototype.split for a nonempty separator: scan
left to right, on a separator match emit the accumulated segment and skip
the separator, otherwise accumulate the character.  The fuel argument makes
the recursion structural; a fuel of at least the string length plus one is
never exhausted when the separator is nonempty. -/
def splitFuel (sep : List Char) : ℕ → List Char → List Char → List (List Char)
  | 0, s, acc => [acc.reverse ++ s]
  | _ + 1, [], acc => [acc.reverse]
  | n + 1, c :: rest, acc =>
    if sep.isPrefixOf (c :: rest) then
      acc.reverse :: splitFuel sep n ((c :: rest).drop sep.length) []
    else splitFuel sep n rest (c :: acc)

/-- JavaScript s.split(sep) for a nonempty string separator, as used at
line 17 with the separators underscore-zero-one and underscore. -/
def jsSplit (s sep : String) : List String :=
  (splitFuel sep.data (s.data.length + 1) s.data []).map String.mk

/-- Name derivation of processImages lines 17 to 20: split the filename on
the first occurrence of the substring underscore-zero-one, split the prefix
on underscores, read token 0 as last name and token 1 as first name, and
interpolate first-space-last.  A missing token renders as the string
"undefined", as a JavaScript template literal does. -/
def formattedName (name : String) : String :=
  let nameParts := jsSplit ((jsSplit name "_01").headD "") "_"
  let lastName := nameParts.getD 0 "undefined"
  let firstName := nameParts.getD 1 "undefined"
  firstName ++ " " ++ lastName

/-- Stable comparison sort modelling Array.prototype.sort under the name
comparator of lines 13 and 14.  The ECMAScript sort is stable, and every
stable sort consistent with the comparator produces the same list, so
insertion sort is a faithful model. -/
def nameRel (nameLe : String → String → Bool) (a b : FileData) : Prop :=
  nameLe a.name b.name = true

instance instDecNameRel (nameLe : String → String → Bool) : DecidableRel (nameRel nameLe) :=
  fun a b => instDecidableEqBool (nameLe a.name b.name) true

def sortJS (nameLe : String → String → Bool) (l : List FileData) : List FileData :=
  List.insertionSort (nameRel nameLe) l

/-- Code-point comparison of two character lists, a concrete instance of a
locale collation. -/
def charsLe : List Char → List Char → Bool
  | [], _ => true
  | _ :: _, [] => false
  | a :: as, b :: bs =>
    if a.toNat < b.toNat then true
    else if b.toNat < a.toNat then false
    else charsLe as bs

/-- Concrete name comparator: code-point lexicographic order. -/
def nameLeW (a b : String) : Bool := charsLe a.data b.data

/-- Aspect-fit dimensions of drawImage lines 91 to 99: start from the half
size 960 by 1080; if the photo is relatively wider than the half, keep
height 1080 and widen, otherwise keep width 960 and heighten. -/
def drawDims (imgWidth imgHeight : ℚ) : ℚ × ℚ :=
  let halfWidth : ℚ := 1920 / 2
  let aspect := imgWidth / imgHeight
  let drawWidth : ℚ := halfWidth
  let drawHeight : ℚ := 1080
  if aspect > halfWidth / 1080 then (drawHeight * aspect, drawHeight)
  else (drawWidth, drawWidth / aspect)

/-- Destination rectangle of drawImage lines 101 to 105: the aspect-fit
dimensions centered in the half whose origin is `x`.  Components are
(drawX, drawY, drawWidth, drawHeight). -/
def drawRect (file : FileData) (x : ℚ) : ℚ × ℚ × ℚ × ℚ :=
  let halfWidth : ℚ := 1920 / 2
  let d := drawDims file.width file.height
  (x + (halfWidth - d.1) / 2, (1080 - d.2) / 2, d.1, d.2)

/-- Coordinate-transform calls of drawImage lines 78 to 88: translate to the
half center, then, when a Transform is present, rotate, scale and translate
by the offset, then translate back by the half-center displacement. -/
def transformOps (x : ℚ) (transform : Option Transform) : List CanvasOp :=
  let halfWidth : ℚ := 1920 / 2
  [CanvasOp.translate (x + halfWidth / 2) (1080 / 2)] ++
    (match transform with
      | some t => [CanvasOp.rotateDeg t.rotation, CanvasOp.scaleBy t.scale,
          CanvasOp.translate t.position.x t.position.y]
      | none => []) ++
    [CanvasOp.translate (-(halfWidth / 2)) (-(1080 / 2))]

/-- Trace of one drawImage invocation (lines 72 to 107): save, the
coordinate transform, the aspect-fit draw call, restore. -/
def drawImageOps (file : FileData) (x : ℚ) : List CanvasOp :=
  let r := drawRect file x
  [CanvasOp.save] ++ transformOps x file.transform ++
    [CanvasOp.drawImg file.preview r.1 r.2.1 r.2.2.1 r.2.2.2, CanvasOp.restore]

/-- Font string of lines 117 to 121: the bold and italic flags joined by a
space, then the pixel size and the family. -/
def fontStyleString (t : TextOptions) : String :=
  let fontStyle := (if t.bold then ["bold"] else []) ++ (if t.italic then ["italic"] else [])
  String.intercalate " " fontStyle ++ " " ++ toString t.size ++ "px " ++ t.font

/-- Anchor switch of lines 131 to 148, with `textHeight` bound to the size
field as in line 126. -/
def textAnchor (pos : TextPosition) (canvasWidth canvasHeight textWidth textHeight : ℚ) :
    ℚ × ℚ :=
  match pos with
  | TextPosition.topLeft => (20, textHeight + 20)
  | TextPosition.topRight => (canvasWidth - textWidth - 20, textHeight + 20)
  | TextPosition.bottomLeft => (20, canvasHeight - 20)
  | TextPosition.bottomRight => (canvasWidth - textWidth - 20, canvasHeight - 20)

/-- Text pass of lines 116 to 157.  `measure` models ctx.measureText under
the font configured just before the call.  The pass runs only when the
options are present, enabled and carry a nonempty text; a stroke pass, when
requested, precedes the fill pass at the same anchor. -/
def textOps (measure : String → ℚ) (textOptions : Option TextOptions) : List CanvasOp :=
  match textOptions with
  | none => []
  | some t =>
    if t.enabled && t.text ≠ "" then
      let anchor := textAnchor t.position 1920 1080 (measure t.text) t.size
      [CanvasOp.setFont (fontStyleString t), CanvasOp.setFillStyle (strOr t.color "#000000")] ++
        (if t.stroke then
          [CanvasOp.setStrokeStyle (strOr t.strokeColor "#FFFFFF"),
            CanvasOp.setLineWidth (numOr t.strokeWidth 2),
            CanvasOp.strokeText t.text anchor.1 anchor.2]
        else []) ++
        [CanvasOp.fillText t.text anchor.1 anchor.2]
    else []

/-- Full trace of one composite once both images have loaded: white
background fill, the left half at origin 0, the right half at origin 960,
then the text pass. -/
def compositeOps (measure : String → ℚ) (leftFile rightFile : FileData)
    (textOptions : Option TextOptions) : List CanvasOp :=
  [CanvasOp.setFillStyle "#FFFFFF", CanvasOp.fillRect 0 0 1920 1080] ++
    drawImageOps leftFile 0 ++ drawImageOps rightFile (1920 / 2) ++
    textOps measure textOptions

/-- Result record resolved by createCombinedImage lines 161 to 171.  The
encoded jpeg is modelled by the trace of operations that produced the
canvas. -/
structure ProcessedImage where
  dataUrl : List CanvasOp
  name : String
  leftPhoto : String
  rightPhoto : String
  textOptions : Option TextOptions
  transformLeft : Option Transform
  transformRight : Option Transform
deriving DecidableEq, Repr

/-- createCombinedImage lines 43 to 191.  A failing decode rejects with the
message of the matching onerror handler; the left decode is examined first,
a determinization of the unspecified ordering of the two loads (either
failure rejects the composite and no drawing output is produced). -/
def createCombinedImage (measure : String → ℚ) (leftFile rightFile : FileData)
    (name : String) (textOptions : Option TextOptions) : Except String ProcessedImage :=
  if leftFile.decodes = false then
    Except.error ("Failed to load left image: " ++ leftFile.name)
  else if rightFile.decodes = false then
    Except.error ("Failed to load right image: " ++ rightFile.name)
  else
    Except.ok
      { dataUrl := compositeOps measure leftFile rightFile textOptions
        name := name
        leftPhoto := leftFile.preview
        rightPhoto := rightFile.preview
        textOptions := textOptions
        transformLeft := leftFile.transform
        transformRight := rightFile.transform }

/-- Per-pair text options of processImages lines 22 to 26: when enabled, an
empty global text falls back to the derived name; when disabled, the derived
name is recorded anyway; an empty color defaults to black. -/
def pairTextOptions (globalTextOptions : TextOptions) (fname : String) : TextOptions :=
  { globalTextOptions with
    text := if globalTextOptions.enabled then strOr globalTextOptions.text fname else fname
    color := strOr globalTextOptions.color "#000000" }

/-- Successful result of one pair of the batch loop. -/
def pairResult (measure : String → ℚ) (globalTextOptions : TextOptions)
    (leftFile rightFile : FileData) : ProcessedImage :=
  { dataUrl := compositeOps measure leftFile rightFile
      (some (pairTextOptions globalTextOptions (formattedName leftFile.name)))
    name := formattedName leftFile.name
    leftPhoto := leftFile.preview
    rightPhoto := rightFile.preview
    textOptions := some (pairTextOptions globalTextOptions (formattedName leftFile.name))
    transformLeft := leftFile.transform
    transformRight := rightFile.transform }

/-- Loop body of processImages lines 16 to 38 over the zipped sorted
collections, starting at loop counter `i`.  The second component is the
sequence of onProgress arguments; a rejected composite aborts the loop, so
no further result and no further progress call happens. -/
def processPairs (measure : String → ℚ) (globalTextOptions : TextOptions)
    (pairs : List (FileData × FileData)) (totalImages : ℕ) (i : ℕ) :
    Except String (List ProcessedImage) × List ℚ :=
  match pairs with
  | [] => (Except.ok [], [])
  | (leftFile, rightFile) :: rest =>
    let fname := formattedName leftFile.name
    match createCombinedImage measure leftFile rightFile fname
        (some (pairTextOptions globalTextOptions fname)) with
    | Except.error e => (Except.error e, [])
    | Except.ok result =>
      let restOut := processPairs measure globalTextOptions rest totalImages (i + 1)
      let progressValue : ℚ := ((i : ℚ) + 1) / (totalImages : ℚ) * 100
      ((match restOut.1 with
        | Except.error e => Except.error e
        | Except.ok results => Except.ok (result :: results)),
        progressValue :: restOut.2)

/-- processImages lines 4 to 41.  `nameLe` models the localeCompare
comparator of lines 13 and 14 (true when the first name sorts no later than
the second); the sort of a JavaScript array is stable, as the model sort is.
Zipping the two sorted collections pairs equal ranks and truncates to the
shorter side, exactly as the loop bound min of the two lengths does. -/
def processImages (measure : String → ℚ) (nameLe : String → String → Bool)
    (babyPhotos currentPhotos : List FileData) (globalTextOptions : TextOptions) :
    Except String (List ProcessedImage) × List ℚ :=
  let totalImages := min babyPhotos.length currentPhotos.length
  let sortedBabyPhotos := sortJS nameLe babyPhotos
  let sortedCurrentPhotos := sortJS nameLe currentPhotos
  processPairs measure globalTextOptions (sortedBabyPhotos.zip sortedCurrentPhotos)
    totalImages 0

/-!
Mutable-array model for the sorting phase.  JavaScript arrays are
references into a store; the spread operator allocates a fresh array and
Array.prototype.sort mutates its receiver in place.  This makes the
frame property of lines 13 and 14 a statement about the store rather than
a triviality of pure lists.
-/

/-- Store of allocated arrays, addressed by allocation order. -/
structure Store where
  arrays : List (List FileData)
deriving Repr

/-- Allocate a fresh array holding `v`; returns the new store and the fresh
reference. -/
def alloc (st : Store) (v : List FileData) : Store × ℕ :=
  ({ arrays := st.arrays ++ [v] }, st.arrays.length)

/-- Read the array behind a reference. -/
def readRef (st : Store) (r : ℕ) : List FileData :=
  (st.arrays[r]?).getD []

/-- Overwrite the array behind a reference. -/
def writeRef (st : Store) (r : ℕ) (v : List FileData) : Store :=
  { arrays := st.arrays.set r v }

/-- Lines 13 and 14 of processImages under the store model: spread-copy the
input array, then sort the copy in place with the name comparator.  Returns
the final store with the two fresh references. -/
def sortedCopies (nameLe : String → String → Bool) (st : Store)
    (babyRef currentRef : ℕ) : Store × ℕ × ℕ :=
  let a1 := alloc st (readRef st babyRef)
  let st1 := writeRef a1.1 a1.2 (sortJS nameLe (readRef a1.1 a1.2))
  let a2 := alloc st1 (readRef st1 currentRef)
  let st2 := writeRef a2.1 a2.2 (sortJS nameLe (readRef a2.1 a2.2))
  (st2, a1.2, a2.2)

/-!
Real-plane semantics of the coordinate-transform operations.  A canvas
context maps user-space points to device-space points through the calls
issued so far; each call post-multiplies the current matrix, so the first
call is the outermost map.
-/

/-- Translation of the plane. -/
def translateMap (dx dy : ℝ) (p : ℝ × ℝ) : ℝ × ℝ :=
  (p.1 + dx, p.2 + dy)

/-- Rotation of the plane about the origin by `t` radians. -/
noncomputable def rotateMap (t : ℝ) (p : ℝ × ℝ) : ℝ × ℝ :=
  (Real.cos t * p.1 - Real.sin t * p.2, Real.sin t * p.1 + Real.cos t * p.2)

/-- Uniform scaling of the plane about the origin. -/
def scaleMap (s : ℝ) (p : ℝ × ℝ) : ℝ × ℝ :=
  (s * p.1, s * p.2)

/-- Point semantics of one canvas call.  The recorded degree argument of
`rotateDeg` acts as the radian angle degrees-times-pi-over-180, exactly the
conversion at line 82 of the source.  Calls that do not move points act as
the identity. -/
noncomputable def applyOp : CanvasOp → (ℝ × ℝ) → (ℝ × ℝ)
  | CanvasOp.translate dx dy => translateMap (dx : ℝ) (dy : ℝ)
  | CanvasOp.rotateDeg d => rotateMap ((d : ℝ) * Real.pi / 180)
  | CanvasOp.scaleBy s => scaleMap (s : ℝ)
  | _ => id

/-- User-space to device-space map of a call sequence: the first call is
the outermost map. -/
noncomputable def applyOps : List CanvasOp → (ℝ × ℝ) → (ℝ × ℝ)
  | [], p => p
  | op :: rest, p => applyOp op (applyOps rest p)

/-- Device-space position of a user-space point of the half at origin `x`
drawn under Transform `t`. -/
noncomputable def devicePoint (x : ℚ) (t : Transform) (p : ℝ × ℝ) : ℝ × ℝ :=
  applyOps (transformOps x (some t)) p

/-- The zipped sorted collections consumed by the loop of processImages. -/
def sortedPairs (nameLe : String → String → Bool) (babyPhotos currentPhotos : List FileData) :
    List (FileData × FileData) :=
  (sortJS nameLe babyPhotos).zip (sortJS nameLe currentPhotos)

/-- Error component of a batch outcome, when the batch rejected. -/
def errorOf : Except String (List ProcessedImage) → Option String
  | Except.error e => some e
  | Except.ok _ => none

/-- Rejection message of the first failing pair: the onerror handler of the
left image fires when the left decode fails, otherwise the right one
(lines 185 and 186). -/
def failMsg (pr : FileData × FileData) : String :=
  if pr.1.decodes then "Failed to load right image: " ++ pr.2.name
  else "Failed to load left image: " ++ pr.1.name

/-- Recognizer of fill-text operations. -/
def isFillText : CanvasOp → Bool
  | CanvasOp.fillText _ _ _ => true
  | _ => false

/-- Number of fill-text operations in a trace. -/
def fillTextCount (ops : List CanvasOp) : ℕ := (ops.filter isFillText).length

/-- Recognizer of image-draw operations. -/
def isDrawImg : CanvasOp → Bool
  | CanvasOp.drawImg _ _ _ _ _ => true
  | _ => false

/-- Number of image-draw operations in a trace. -/
def drawImgCount (ops : List CanvasOp) : ℕ := (ops.filter isDrawImg).length

/-!
Concrete data for the closed instances below.
-/

/-- Concrete text metrics: every string measures 100 pixels wide. -/
def measureW : String → ℚ := fun _ => 100

/-- Concrete global text options: enabled, no explicit text, no explicit
color. -/
def gOptsW : TextOptions :=
  { enabled := true, text := "", font := "Arial", size := 24, bold := false, italic := false,
    color := "", position := TextPosition.bottomRight, stroke := false, strokeColor := "",
    strokeWidth := 0 }

/-- Concrete 800 by 600 photo. -/
def photoW : FileData :=
  { name := "Smith_John_01.jpg", preview := "blob:left", width := 800, height := 600,
    decodes := true, transform := none }

/-- Concrete left-side photo that decodes. -/
def photoBabyA : FileData :=
  { name := "Able_Ann_01.jpg", preview := "blob:a1", width := 800, height := 600,
    decodes := true, transform := none }

/-- Concrete left-side photo whose decode fails. -/
def photoBabyBadZ : FileData :=
  { name := "Zed_Bad_01.jpg", preview := "blob:z1", width := 800, height := 600,
    decodes := false, transform := none }

/-- Concrete right-side photo that decodes. -/
def photoCurA : FileData :=
  { name := "Able_Ann_02.jpg", preview := "blob:a2", width := 800, height := 600,
    decodes := true, transform := none }

/-- Concrete right-side photo that decodes, sorting after photoCurA. -/
def photoCurZ : FileData :=
  { name := "Zed_Bad_02.jpg", preview := "blob:z2", width := 800, height := 600,
    decodes := true, transform := none }

/-- Concrete photo carrying a negative-scale Transform. -/
def leftScaleNeg : FileData :=
  { name := "Able_Ann_01.jpg", preview := "blob:left", width := 800, height := 600,
    decodes := true,
    transform := some { rotation := 0, scale := -1, position := { x := 0, y := 0 } } }

/-- Concrete plain right-side photo. -/
def rightPlain : FileData :=
  { name := "Able_Ann_02.jpg", preview := "blob:right", width := 800, height := 600,
    decodes := true, transform := none }

/-- Concrete store holding two allocated arrays. -/
def storeW : Store := { arrays := [[photoBabyA], [photoCurA, photoCurZ]] }

/-!
Helper lemmas.
-/

/-- A draw-image invocation issues no fill-text operation. -/
theorem drawImageOps_no_fillText (f : FileData) (x : ℚ) :
    (drawImageOps f x).filter isFillText = [] := by
  cases htr : f.transform <;> simp [drawImageOps, transformOps, isFillText, htr]

/-- When both photos of a pair decode, the composite resolves to the pair
result. -/
theorem createCombinedImage_ok (measure : String → ℚ) (g : TextOptions)
    (leftFile rightFile : FileData) (hl : leftFile.decodes = true)
    (hr : rightFile.decodes = true) :
    createCombinedImage measure leftFile rightFile (formattedName leftFile.name)
        (some (pairTextOptions g (formattedName leftFile.name))) =
      Except.ok (pairResult measure g leftFile rightFile) := by
  simp [createCombinedImage, hl, hr, pairResult]

/-- Batch loop on a run of fully-decoding pairs: one result and one progress
call per pair, in order. -/
theorem processPairs_ok (measure : String → ℚ) (g : TextOptions)
    (pairs : List (FileData × FileData)) (total : ℕ) (i : ℕ)
    (h : ∀ pr ∈ pairs, pr.1.decodes = true ∧ pr.2.decodes = true) :
    processPairs measure g pairs total i =
      (Except.ok (pairs.map (fun pr => pairResult measure g pr.1 pr.2)),
        (List.range pairs.length).map
          (fun k : ℕ => ((i : ℚ) + (k : ℚ) + 1) / (total : ℚ) * 100)) := by
  induction pairs generalizing i with
  | nil => simp [processPairs]
  | cons hd tl ih =>
    obtain ⟨l, r⟩ := hd
    obtain ⟨hl, hr⟩ := h (l, r) (List.mem_cons_self _ _)
    have htl : ∀ pr ∈ tl, pr.1.decodes = true ∧ pr.2.decodes = true :=
      fun pr hpr => h pr (List.mem_cons_of_mem _ hpr)
    simp only [processPairs, createCombinedImage_ok measure g l r hl hr, ih (i + 1) htl]
    rw [Prod.ext_iff]
    refine ⟨rfl, ?_⟩
    simp only [List.length_cons, List.range_succ_eq_map, List.map_cons, List.map_map]
    congr 1
    · push_cast
      ring
    · apply List.map_congr_left
      intro k _
      simp only [Function.comp]
      push_cast
      ring

/-- Batch loop when the first failure sits at position k: the loop rejects
with the failure message of that pair and exactly k progress calls have
fired. -/
theorem processPairs_err (measure : String → ℚ) (g : TextOptions)
    (pairs : List (FileData × FileData)) (total : ℕ) (i : ℕ) (k : ℕ)
    (hk : k < pairs.length)
    (hpre : ∀ pr ∈ pairs.take k, pr.1.decodes = true ∧ pr.2.decodes = true)
    (hfail : ¬((pairs.get ⟨k, hk⟩).1.decodes = true ∧ (pairs.get ⟨k, hk⟩).2.decodes = true)) :
    processPairs measure g pairs total i =
      (Except.error (failMsg (pairs.get ⟨k, hk⟩)),
        (List.range k).map
          (fun j : ℕ => ((i : ℚ) + (j : ℚ) + 1) / (total : ℚ) * 100)) := by
  induction pairs generalizing i k with
  | nil => exact absurd hk (Nat.not_lt_zero k)
  | cons hd tl ih =>
    obtain ⟨l, r⟩ := hd
    cases k with
    | zero =>
      simp only [List.get] at hfail ⊢
      by_cases hld : l.decodes = true
      · have hrd : r.decodes = false := by
          cases hr2 : r.decodes
          · rfl
          · exact absurd ⟨hld, hr2⟩ hfail
        simp [processPairs, createCombinedImage, hld, hrd, failMsg]
      · have hld2 : l.decodes = false := by
          cases hl2 : l.decodes
          · rfl
          · exact absurd hl2 hld
        simp [processPairs, createCombinedImage, hld2, failMsg]
    | succ k2 =>
      have hhd : l.decodes = true ∧ r.decodes = true := by
        refine hpre (l, r) ?_
        simp [List.take_succ_cons]
      have hk2 : k2 < tl.length := Nat.lt_of_succ_lt_succ hk
      have hpre2 : ∀ pr ∈ tl.take k2, pr.1.decodes = true ∧ pr.2.decodes = true := by
        intro pr hpr
        exact hpre pr (by simp [List.take_succ_cons, hpr])
      have hfail2 : ¬((tl.get ⟨k2, hk2⟩).1.decodes = true ∧
          (tl.get ⟨k2, hk2⟩).2.decodes = true) := by
        simpa using hfail
      simp only [processPairs, createCombinedImage_ok measure g l r hhd.1 hhd.2,
        ih (i + 1) k2 hk2 hpre2 hfail2]
      rw [Prod.ext_iff]
      refine ⟨by simp, ?_⟩
      simp only [List.range_succ_eq_map, List.map_cons, List.map_map]
      congr 1
      · push_cast
        ring
      · apply List.map_congr_left
        intro j _
        simp only [Function.comp]
        push_cast
        ring

/-- processImages is the batch loop over the zipped sorted collections. -/
theorem processImages_eq (measure : String → ℚ) (nameLe : String → String → Bool)
    (babyPhotos currentPhotos : List FileData) (globalTextOptions : TextOptions) :
    processImages measure nameLe babyPhotos currentPhotos globalTextOptions =
      processPairs measure globalTextOptions (sortedPairs nameLe babyPhotos currentPhotos)
        (min babyPhotos.length currentPhotos.length) 0 := rfl

/-- Sorting preserves length. -/
theorem sortJS_length (nameLe : String → String → Bool) (l : List FileData) :
    (sortJS nameLe l).length = l.length :=
  List.length_insertionSort _ l

/-- Sorting preserves membership. -/
theorem sortJS_mem (nameLe : String → String → Bool) {f : FileData} {l : List FileData}
    (h : f ∈ sortJS nameLe l) : f ∈ l :=
  (List.perm_insertionSort (nameRel nameLe) l).mem_iff.1 h

/-- The zipped sorted collections have the length of the shorter input. -/
theorem sortedPairs_length (nameLe : String → String → Bool)
    (babyPhotos currentPhotos : List FileData) :
    (sortedPairs nameLe babyPhotos currentPhotos).length =
      min babyPhotos.length currentPhotos.length := by
  simp [sortedPairs, List.length_zip, sortJS_length]

/-- When every input photo decodes, so does every photo of every sorted
pair. -/
theorem sortedPairs_decodes (nameLe : String → String → Bool)
    (babyPhotos currentPhotos : List FileData)
    (hb : ∀ f ∈ babyPhotos, f.decodes = true) (hc : ∀ f ∈ currentPhotos, f.decodes = true) :
    ∀ pr ∈ sortedPairs nameLe babyPhotos currentPhotos,
      pr.1.decodes = true ∧ pr.2.decodes = true := by
  intro pr hpr
  obtain ⟨a, b⟩ := pr
  obtain ⟨ha, hb2⟩ := List.of_mem_zip hpr
  exact ⟨hb a (sortJS_mem nameLe ha), hc b (sortJS_mem nameLe hb2)⟩

/-- Reading an existing reference is unaffected by an allocation. -/
theorem readRef_alloc (st : Store) (v : List FileData) (r : ℕ) (h : r < st.arrays.length) :
    readRef (alloc st v).1 r = readRef st r := by
  simp [readRef, alloc, List.getElem?_append_left h]

/-- A fresh allocation reads back the allocated value. -/
theorem readRef_alloc_fresh (st : Store) (v : List FileData) :
    readRef (alloc st v).1 (alloc st v).2 = v := by
  simp [readRef, alloc, List.getElem?_concat_length]

/-- Reading a reference other than the written one is unaffected. -/
theorem readRef_writeRef_ne (st : Store) (r j : ℕ) (v : List FileData) (h : r ≠ j) :
    readRef (writeRef st r v) j = readRef st j := by
  simp [readRef, writeRef, List.getElem?_set_ne h]

/-- Reading a valid written reference yields the written value. -/
theorem readRef_writeRef_self (st : Store) (r : ℕ) (v : List FileData)
    (h : r < st.arrays.length) : readRef (writeRef st r v) r = v := by
  simp [readRef, writeRef, List.getElem?_set_self h]

/-- Writing preserves the number of allocated arrays. -/
theorem length_writeRef (st : Store) (r : ℕ) (v : List FileData) :
    (writeRef st r v).arrays.length = st.arrays.length := by
  simp [writeRef]

/-!
Claim theorems.
-/

/-- C1: for every pair of input collections whose photos all decode,
processImages produces exactly min of the two lengths results, obtained by
pairing the rank-i elements of the two collections after each is
independently sorted by the name comparator (excess items of the longer
side are dropped by the zip), and whenever the comparator is total and
transitive both sorted collections are ascending under it. -/
theorem spec_c1 (measure : String → ℚ) (nameLe : String → String → Bool)
    (babyPhotos currentPhotos : List FileData) (globalTextOptions : TextOptions)
    (hb : ∀ f ∈ babyPhotos, f.decodes = true) (hc : ∀ f ∈ currentPhotos, f.decodes = true) :
    (processImages measure nameLe babyPhotos currentPhotos globalTextOptions).1 =
      Except.ok ((sortedPairs nameLe babyPhotos currentPhotos).map
        (fun pr => pairResult measure globalTextOptions pr.1 pr.2)) ∧
    ((sortedPairs nameLe babyPhotos currentPhotos).map
        (fun pr => pairResult measure globalTextOptions pr.1 pr.2)).length =
      min babyPhotos.length currentPhotos.length ∧
    ((∀ a b, nameLe a b = true ∨ nameLe b a = true) →
      (∀ a b c, nameLe a b = true → nameLe b c = true → nameLe a c = true) →
      List.Sorted (nameRel nameLe) (sortJS nameLe babyPhotos) ∧
      List.Sorted (nameRel nameLe) (sortJS nameLe currentPhotos)) := by
  refine ⟨?_, ?_, ?_⟩
  · rw [processImages_eq, processPairs_ok measure globalTextOptions _ _ _
      (sortedPairs_decodes nameLe babyPhotos currentPhotos hb hc)]
  · simp [List.length_map, sortedPairs_length]
  · intro htot htrans
    letI : IsTotal FileData (nameRel nameLe) :=
      ⟨fun a b => htot a.name b.name⟩
    letI : IsTrans FileData (nameRel nameLe) :=
      ⟨fun a b c hab hbc => htrans a.name b.name c.name hab hbc⟩
    exact ⟨List.sorted_insertionSort _ _, List.sorted_insertionSort _ _⟩

/-- Witness for C1 at a concrete batch of one left photo and two right
photos. -/
theorem spec_c1_witness :
    (processImages measureW nameLeW [photoBabyA] [photoCurA, photoCurZ] gOptsW).1 =
      Except.ok ((sortedPairs nameLeW [photoBabyA] [photoCurA, photoCurZ]).map
        (fun pr => pairResult measureW gOptsW pr.1 pr.2)) ∧
    ((sortedPairs nameLeW [photoBabyA] [photoCurA, photoCurZ]).map
        (fun pr => pairResult measureW gOptsW pr.1 pr.2)).length =
      min (1 : ℕ) 2 ∧
    ((∀ a b, nameLeW a b = true ∨ nameLeW b a = true) →
      (∀ a b c, nameLeW a b = true → nameLeW b c = true → nameLeW a c = true) →
      List.Sorted (nameRel nameLeW) (sortJS nameLeW [photoBabyA]) ∧
      List.Sorted (nameRel nameLeW) (sortJS nameLeW [photoCurA, photoCurZ])) :=
  spec_c1 measureW nameLeW [photoBabyA] [photoCurA, photoCurZ] gOptsW (by decide) (by decide)

/-- C2: for every photo with positive native dimensions drawn into a 960 by
1080 half, the layout fixes height 1080 and width 1080 times the aspect
when the aspect exceeds 960 over 1080, and otherwise fixes width 960 and
height 960 over the aspect; the rectangle is centered in the half through
drawX equals originX plus half of 960 minus drawWidth and drawY equals half
of 1080 minus drawHeight, preserves the aspect, and has width 960 or height
1080. -/
theorem spec_c2 (file : FileData) (x : ℚ) (hw : 0 < file.width) (hh : 0 < file.height) :
    ((if file.width / file.height > 960 / 1080 then
        (drawDims file.width file.height).2 = 1080 ∧
          (drawDims file.width file.height).1 = 1080 * (file.width / file.height)
      else
        (drawDims file.width file.height).1 = 960 ∧
          (drawDims file.width file.height).2 = 960 / (file.width / file.height)) ∧
      drawRect file x =
        (x + (960 - (drawDims file.width file.height).1) / 2,
          (1080 - (drawDims file.width file.height).2) / 2,
          (drawDims file.width file.height).1, (drawDims file.width file.height).2)) ∧
      (drawDims file.width file.height).1 / (drawDims file.width file.height).2 =
        file.width / file.height ∧
      ((drawDims file.width file.height).1 = 960 ∨ (drawDims file.width file.height).2 = 1080) := by
  have hrne : file.width / file.height ≠ 0 := ne_of_gt (div_pos hw hh)
  have e1 : (1920 : ℚ) / 2 / 1080 = 960 / 1080 := by norm_num
  have e2 : (1920 : ℚ) / 2 = 960 := by norm_num
  simp only [drawDims, drawRect, e1, e2]
  by_cases hc : file.width / file.height > 960 / 1080
  · simp only [if_pos hc]
    refine ⟨⟨⟨trivial, by ring_nf⟩, trivial⟩, ?_, Or.inr trivial⟩
    rw [mul_comm, mul_div_assoc, div_self (by norm_num : (1080 : ℚ) ≠ 0), mul_one]
  · simp only [if_neg hc]
    refine ⟨⟨⟨trivial, trivial⟩, trivial⟩, ?_, Or.inl trivial⟩
    rw [div_div_cancel₀ (by norm_num : (960 : ℚ) ≠ 0)]

/-- Witness for C2 at a concrete 800 by 600 photo in the left half. -/
theorem spec_c2_witness :
    ((if photoW.width / photoW.height > 960 / 1080 then
        (drawDims photoW.width photoW.height).2 = 1080 ∧
          (drawDims photoW.width photoW.height).1 = 1080 * (photoW.width / photoW.height)
      else
        (drawDims photoW.width photoW.height).1 = 960 ∧
          (drawDims photoW.width photoW.height).2 = 960 / (photoW.width / photoW.height)) ∧
      drawRect photoW 0 =
        (0 + (960 - (drawDims photoW.width photoW.height).1) / 2,
          (1080 - (drawDims photoW.width photoW.height).2) / 2,
          (drawDims photoW.width photoW.height).1, (drawDims photoW.width photoW.height).2)) ∧
      (drawDims photoW.width photoW.height).1 / (drawDims photoW.width photoW.height).2 =
        photoW.width / photoW.height ∧
      ((drawDims photoW.width photoW.height).1 = 960 ∨
        (drawDims photoW.width photoW.height).2 = 1080) :=
  spec_c2 photoW 0 (by norm_num [photoW]) (by norm_num [photoW])

/-- C3: for every resolved Transform the per-half coordinate transform is
issued in the fixed order translate to the half center at half index times
960 plus 480 and 540, rotate by the degrees converted to radians, scale
uniformly, translate by the offset in the rotated-and-scaled frame, then
the inverse of the within-half centering translation; the induced
user-to-device point map factors accordingly. -/
theorem spec_c3 (halfIndex : ℕ) (t : Transform) (p : ℝ × ℝ) :
    transformOps ((halfIndex : ℚ) * 960) (some t) =
      [CanvasOp.translate ((halfIndex : ℚ) * 960 + 480) 540, CanvasOp.rotateDeg t.rotation,
        CanvasOp.scaleBy t.scale, CanvasOp.translate t.position.x t.position.y,
        CanvasOp.translate (-480) (-540)] ∧
    applyOps (transformOps ((halfIndex : ℚ) * 960) (some t)) p =
      translateMap ((halfIndex : ℝ) * 960 + 480) 540
        (rotateMap ((t.rotation : ℝ) * Real.pi / 180)
          (scaleMap (t.scale : ℝ)
            (translateMap (t.position.x : ℝ) (t.position.y : ℝ)
              (translateMap (-480) (-540) p)))) := by
  constructor
  · simp only [transformOps]
    norm_num
  · simp only [transformOps, applyOps, applyOp, List.cons_append, List.nil_append]
    simp only [translateMap, rotateMap, scaleMap]
    push_cast
    norm_num

/-- C4: the display name splits the left filename on the first occurrence
of the underscore-zero-one marker, splits the prefix on underscores, reads
token 0 as last name and token 1 as first name, and renders
first-space-last. -/
theorem spec_c4 (name pre lastName firstName : String) (tail : List String)
    (rest : List String) (h1 : jsSplit name "_01" = pre :: tail)
    (h2 : jsSplit pre "_" = lastName :: firstName :: rest) :
    formattedName name = firstName ++ " " ++ lastName := by
  simp [formattedName, h1, h2]

/-- Witness for C4: the filename of the specification example yields
exactly John-space-Smith. -/
theorem spec_c4_witness : formattedName "Smith_John_01.jpg" = "John Smith" :=
  spec_c4 "Smith_John_01.jpg" "Smith_John" "Smith" "John" [".jpg"] [] (by decide) (by decide)

/-- C5 counterexample: the batch error does not identify the originating
pair index.  A batch failing at pair index 0 and a batch failing at pair
index 1 (evidenced by zero versus one prior progress calls) reject with the
identical error value, so the error cannot identify the index; it names
only the failing side and filename. -/
theorem spec_c5_cx :
    errorOf (processImages measureW nameLeW [photoBabyBadZ] [photoCurZ] gOptsW).1 =
      some "Failed to load left image: Zed_Bad_01.jpg" ∧
    (processImages measureW nameLeW [photoBabyBadZ] [photoCurZ] gOptsW).2.length = 0 ∧
    errorOf (processImages measureW nameLeW [photoBabyA, photoBabyBadZ]
        [photoCurA, photoCurZ] gOptsW).1 =
      some "Failed to load left image: Zed_Bad_01.jpg" ∧
    (processImages measureW nameLeW [photoBabyA, photoBabyBadZ]
        [photoCurA, photoCurZ] gOptsW).2.length = 1 := by
  refine ⟨by decide, by decide, by decide, by decide⟩

/-- C5 as amended: when every pair before position k decodes and pair k
fails, the batch rejects with the single error of pair k, naming the
failing side and filename but not the pair index; no results are returned,
and exactly the k progress calls of the earlier pairs have fired before the
failure propagates. -/
theorem spec_c5 (measure : String → ℚ) (nameLe : String → String → Bool)
    (babyPhotos currentPhotos : List FileData) (globalTextOptions : TextOptions) (k : ℕ)
    (hk : k < (sortedPairs nameLe babyPhotos currentPhotos).length)
    (hpre : ∀ pr ∈ (sortedPairs nameLe babyPhotos currentPhotos).take k,
      pr.1.decodes = true ∧ pr.2.decodes = true)
    (hfail : ¬(((sortedPairs nameLe babyPhotos currentPhotos).get ⟨k, hk⟩).1.decodes = true ∧
      ((sortedPairs nameLe babyPhotos currentPhotos).get ⟨k, hk⟩).2.decodes = true)) :
    (processImages measure nameLe babyPhotos currentPhotos globalTextOptions).1 =
      Except.error (failMsg ((sortedPairs nameLe babyPhotos currentPhotos).get ⟨k, hk⟩)) ∧
    (processImages measure nameLe babyPhotos currentPhotos globalTextOptions).2 =
      (List.range k).map (fun j : ℕ => ((j : ℚ) + 1) /
        ((min babyPhotos.length currentPhotos.length : ℕ) : ℚ) * 100) ∧
    (((sortedPairs nameLe babyPhotos currentPhotos).get ⟨k, hk⟩).1.decodes = false →
      failMsg ((sortedPairs nameLe babyPhotos currentPhotos).get ⟨k, hk⟩) =
        "Failed to load left image: " ++
          ((sortedPairs nameLe babyPhotos currentPhotos).get ⟨k, hk⟩).1.name) ∧
    (((sortedPairs nameLe babyPhotos currentPhotos).get ⟨k, hk⟩).1.decodes = true →
      failMsg ((sortedPairs nameLe babyPhotos currentPhotos).get ⟨k, hk⟩) =
        "Failed to load right image: " ++
          ((sortedPairs nameLe babyPhotos currentPhotos).get ⟨k, hk⟩).2.name) := by
  have herr := processPairs_err measure globalTextOptions
    (sortedPairs nameLe babyPhotos currentPhotos)
    (min babyPhotos.length currentPhotos.length) 0 k hk hpre hfail
  refine ⟨?_, ?_, ?_, ?_⟩
  · rw [processImages_eq, herr]
  · rw [processImages_eq, herr]
    apply List.map_congr_left
    intro j _
    norm_num
  · intro h
    simp only [failMsg]
    rw [if_neg (by simpa using h)]
  · intro h
    simp only [failMsg]
    rw [if_pos (by simpa using h)]

/-- Witness for C5 as amended, at a concrete two-pair batch whose second
pair fails on the left side. -/
theorem spec_c5_witness :
    (processImages measureW nameLeW [photoBabyA, photoBabyBadZ]
        [photoCurA, photoCurZ] gOptsW).1 =
      Except.error (failMsg ((sortedPairs nameLeW [photoBabyA, photoBabyBadZ]
        [photoCurA, photoCurZ]).get ⟨1, by decide⟩)) ∧
    (processImages measureW nameLeW [photoBabyA, photoBabyBadZ]
        [photoCurA, photoCurZ] gOptsW).2 =
      (List.range 1).map (fun j : ℕ => ((j : ℚ) + 1) /
        ((min (2 : ℕ) 2 : ℕ) : ℚ) * 100) ∧
    (((sortedPairs nameLeW [photoBabyA, photoBabyBadZ] [photoCurA, photoCurZ]).get
        ⟨1, by decide⟩).1.decodes = false →
      failMsg ((sortedPairs nameLeW [photoBabyA, photoBabyBadZ] [photoCurA, photoCurZ]).get
          ⟨1, by decide⟩) =
        "Failed to load left image: " ++
          ((sortedPairs nameLeW [photoBabyA, photoBabyBadZ] [photoCurA, photoCurZ]).get
            ⟨1, by decide⟩).1.name) ∧
    (((sortedPairs nameLeW [photoBabyA, photoBabyBadZ] [photoCurA, photoCurZ]).get
        ⟨1, by decide⟩).1.decodes = true →
      failMsg ((sortedPairs nameLeW [photoBabyA, photoBabyBadZ] [photoCurA, photoCurZ]).get
          ⟨1, by decide⟩) =
        "Failed to load right image: " ++
          ((sortedPairs nameLeW [photoBabyA, photoBabyBadZ] [photoCurA, photoCurZ]).get
            ⟨1, by decide⟩).2.name) :=
  spec_c5 measureW nameLeW [photoBabyA, photoBabyBadZ] [photoCurA, photoCurZ] gOptsW 1
    (by decide) (by decide) (by decide)

/-- C6 counterexample: a pair whose Transform has scale -1 surfaces no
error at all: the composite succeeds and both halves are drawn, so no
ConfigurationError precedes drawing. -/
theorem spec_c6_cx :
    (createCombinedImage measureW leftScaleNeg rightPlain "Ann Able" none).isOk = true ∧
    CanvasOp.scaleBy (-1) ∈ compositeOps measureW leftScaleNeg rightPlain none ∧
    drawImgCount (compositeOps measureW leftScaleNeg rightPlain none) = 2 := by
  refine ⟨by decide, by decide, by decide⟩

/-- C6 as amended: no configuration validation exists.  For every decoding
pair the composite succeeds; any Transform scale, non-positive included, is
applied verbatim as a canvas scale operation; and text options whose
resolved text is empty draw no text instead of raising an error. -/
theorem spec_c6 (measure : String → ℚ) (leftFile rightFile : FileData) (name : String)
    (textOptions : Option TextOptions) (hl : leftFile.decodes = true)
    (hr : rightFile.decodes = true) :
    (createCombinedImage measure leftFile rightFile name textOptions).isOk = true ∧
    (∀ t : Transform, leftFile.transform = some t →
      CanvasOp.scaleBy t.scale ∈ compositeOps measure leftFile rightFile textOptions) ∧
    (∀ t : TextOptions, textOptions = some t → t.text = "" →
      fillTextCount (compositeOps measure leftFile rightFile textOptions) = 0) := by
  refine ⟨by simp [createCombinedImage, hl, hr, Except.isOk, Except.toBool], ?_, ?_⟩
  · intro t ht
    simp [compositeOps, drawImageOps, transformOps, ht]
  · intro t ht htext
    subst ht
    simp only [fillTextCount, compositeOps, List.filter_append, drawImageOps_no_fillText,
      List.append_nil, List.nil_append]
    simp [textOps, htext, isFillText]

/-- Witness for C6 as amended, at the concrete negative-scale pair. -/
theorem spec_c6_witness :
    (createCombinedImage measureW leftScaleNeg rightPlain "Ann Able" none).isOk = true ∧
    (∀ t : Transform, leftScaleNeg.transform = some t →
      CanvasOp.scaleBy t.scale ∈ compositeOps measureW leftScaleNeg rightPlain none) ∧
    (∀ t : TextOptions, (none : Option TextOptions) = some t → t.text = "" →
      fillTextCount (compositeOps measureW leftScaleNeg rightPlain none) = 0) :=
  spec_c6 measureW leftScaleNeg rightPlain "Ann Able" none (by decide) (by decide)

/-- C7: for every non-empty batch whose photos all decode, onProgress is
invoked exactly once per composite with the value of index plus one over
the total times 100, the reported sequence is strictly increasing within 0
and 100, and the final call equals exactly 100. -/
theorem spec_c7 (measure : String → ℚ) (nameLe : String → String → Bool)
    (babyPhotos currentPhotos : List FileData) (globalTextOptions : TextOptions)
    (hb : ∀ f ∈ babyPhotos, f.decodes = true) (hc : ∀ f ∈ currentPhotos, f.decodes = true)
    (hne : 0 < min babyPhotos.length currentPhotos.length) :
    (processImages measure nameLe babyPhotos currentPhotos globalTextOptions).2 =
      (List.range (min babyPhotos.length currentPhotos.length)).map
        (fun k : ℕ => ((k : ℚ) + 1) /
          ((min babyPhotos.length currentPhotos.length : ℕ) : ℚ) * 100) ∧
    List.Pairwise (· < ·)
      (processImages measure nameLe babyPhotos currentPhotos globalTextOptions).2 ∧
    (∀ p ∈ (processImages measure nameLe babyPhotos currentPhotos globalTextOptions).2,
      0 ≤ p ∧ p ≤ 100) ∧
    (processImages measure nameLe babyPhotos currentPhotos globalTextOptions).2.getLast? =
      some 100 := by
  set n := min babyPhotos.length currentPhotos.length with hn
  have hn0 : (0 : ℚ) < (n : ℚ) := by exact_mod_cast hne
  have hprog : (processImages measure nameLe babyPhotos currentPhotos globalTextOptions).2 =
      (List.range n).map (fun k : ℕ => ((k : ℚ) + 1) / (n : ℚ) * 100) := by
    rw [processImages_eq, processPairs_ok measure globalTextOptions _ _ _
      (sortedPairs_decodes nameLe babyPhotos currentPhotos hb hc)]
    simp only [sortedPairs_length]
    apply List.map_congr_left
    intro k _
    rw [← hn]
    norm_num
  refine ⟨hprog, ?_, ?_, ?_⟩
  · rw [hprog]
    refine List.Pairwise.map _ ?_ (List.pairwise_lt_range n)
    intro a b hab
    have : ((a : ℚ) + 1) < ((b : ℚ) + 1) := by exact_mod_cast Nat.succ_lt_succ hab
    have h2 : ((a : ℚ) + 1) / (n : ℚ) < ((b : ℚ) + 1) / (n : ℚ) :=
      (div_lt_div_iff_of_pos_right hn0).2 this
    exact mul_lt_mul_of_pos_right h2 (by norm_num)
  · rw [hprog]
    intro p hp
    obtain ⟨k, hk, rfl⟩ := List.mem_map.1 hp
    have hkn : k < n := List.mem_range.1 hk
    constructor
    · positivity
    · have h1 : ((k : ℚ) + 1) / (n : ℚ) ≤ 1 := by
        rw [div_le_one hn0]
        exact_mod_cast Nat.succ_le_of_lt hkn
      calc ((k : ℚ) + 1) / (n : ℚ) * 100 ≤ 1 * 100 := by
            exact mul_le_mul_of_nonneg_right h1 (by norm_num)
        _ = 100 := by norm_num
  · rw [hprog, List.getLast?_eq_getElem?]
    simp only [List.length_map, List.length_range]
    rw [List.getElem?_map, List.getElem?_range (by omega : n - 1 < n), Option.map_some']
    congr 1
    have : ((n - 1 : ℕ) : ℚ) = (n : ℚ) - 1 := by
      have h1 : 1 ≤ n := hne
      push_cast [h1]
      ring
    rw [this]
    field_simp

/-- Witness for C7 at a concrete one-pair batch. -/
theorem spec_c7_witness :
    (processImages measureW nameLeW [photoBabyA] [photoCurA] gOptsW).2 =
      (List.range (min (1 : ℕ) 1)).map
        (fun k : ℕ => ((k : ℚ) + 1) / ((min (1 : ℕ) 1 : ℕ) : ℚ) * 100) ∧
    List.Pairwise (· < ·) (processImages measureW nameLeW [photoBabyA] [photoCurA] gOptsW).2 ∧
    (∀ p ∈ (processImages measureW nameLeW [photoBabyA] [photoCurA] gOptsW).2,
      0 ≤ p ∧ p ≤ 100) ∧
    (processImages measureW nameLeW [photoBabyA] [photoCurA] gOptsW).2.getLast? =
      some 100 :=
  spec_c7 measureW nameLeW [photoBabyA] [photoCurA] gOptsW (by decide) (by decide) (by decide)

/-- C8: for every enabled text option with nonempty resolved text the
anchor follows the four-position table with a 20 pixel margin, the text
pass places its single fill at that anchor, and the text is drawn exactly
once per composite. -/
theorem spec_c8 (measure : String → ℚ) (leftFile rightFile : FileData) (t : TextOptions)
    (henabled : t.enabled = true) (htext : t.text ≠ "") :
    (∀ canvasWidth canvasHeight textWidth sizePx : ℚ,
      textAnchor TextPosition.topLeft canvasWidth canvasHeight textWidth sizePx =
        (20, sizePx + 20) ∧
      textAnchor TextPosition.topRight canvasWidth canvasHeight textWidth sizePx =
        (canvasWidth - textWidth - 20, sizePx + 20) ∧
      textAnchor TextPosition.bottomLeft canvasWidth canvasHeight textWidth sizePx =
        (20, canvasHeight - 20) ∧
      textAnchor TextPosition.bottomRight canvasWidth canvasHeight textWidth sizePx =
        (canvasWidth - textWidth - 20, canvasHeight - 20)) ∧
    fillTextCount (compositeOps measure leftFile rightFile (some t)) = 1 ∧
    CanvasOp.fillText t.text
        (textAnchor t.position 1920 1080 (measure t.text) t.size).1
        (textAnchor t.position 1920 1080 (measure t.text) t.size).2 ∈
      compositeOps measure leftFile rightFile (some t) := by
  refine ⟨fun cw ch tw s => ⟨rfl, rfl, rfl, rfl⟩, ?_, ?_⟩
  · simp only [fillTextCount, compositeOps, List.filter_append, drawImageOps_no_fillText,
      List.append_nil, List.nil_append]
    by_cases hst : t.stroke <;>
      simp [textOps, henabled, htext, hst, isFillText]
  · by_cases hst : t.stroke <;>
      simp [compositeOps, textOps, henabled, htext, hst]

/-- Witness for C8 at a concrete composite with bottom-right text of size
24 measuring 100 pixels. -/
theorem spec_c8_witness :
    (∀ canvasWidth canvasHeight textWidth sizePx : ℚ,
      textAnchor TextPosition.topLeft canvasWidth canvasHeight textWidth sizePx =
        (20, sizePx + 20) ∧
      textAnchor TextPosition.topRight canvasWidth canvasHeight textWidth sizePx =
        (canvasWidth - textWidth - 20, sizePx + 20) ∧
      textAnchor TextPosition.bottomLeft canvasWidth canvasHeight textWidth sizePx =
        (20, canvasHeight - 20) ∧
      textAnchor TextPosition.bottomRight canvasWidth canvasHeight textWidth sizePx =
        (canvasWidth - textWidth - 20, canvasHeight - 20)) ∧
    fillTextCount (compositeOps measureW photoBabyA photoCurA
      (some { gOptsW with text := "John Smith" })) = 1 ∧
    CanvasOp.fillText "John Smith"
        (textAnchor TextPosition.bottomRight 1920 1080 (measureW "John Smith") 24).1
        (textAnchor TextPosition.bottomRight 1920 1080 (measureW "John Smith") 24).2 ∈
      compositeOps measureW photoBabyA photoCurA (some { gOptsW with text := "John Smith" }) :=
  spec_c8 measureW photoBabyA photoCurA { gOptsW with text := "John Smith" }
    (by decide) (by decide)

/-- C9: holding rotation and offset fixed, doubling the Transform scale
doubles the displacement of every drawn point about the half center. -/
theorem spec_c9 (x rotation s : ℚ) (position : Offset) (p : ℝ × ℝ) :
    (devicePoint x { rotation := rotation, scale := 2 * s, position := position } p).1 -
        ((x : ℝ) + 480) =
      2 * ((devicePoint x { rotation := rotation, scale := s, position := position } p).1 -
        ((x : ℝ) + 480)) ∧
    (devicePoint x { rotation := rotation, scale := 2 * s, position := position } p).2 - 540 =
      2 * ((devicePoint x { rotation := rotation, scale := s, position := position } p).2 -
        540) := by
  simp only [devicePoint, transformOps, applyOps, applyOp, List.cons_append, List.nil_append,
    translateMap, rotateMap, scaleMap]
  push_cast
  constructor <;> ring

/-- C10: the sorting phase of processImages leaves both input arrays
unchanged in the store, because each sort mutates a fresh spread copy; the
fresh references hold the sorted copies. -/
theorem spec_c10 (nameLe : String → String → Bool) (st : Store) (babyRef currentRef : ℕ)
    (hb : babyRef < st.arrays.length) (hc : currentRef < st.arrays.length) :
    readRef (sortedCopies nameLe st babyRef currentRef).1 babyRef = readRef st babyRef ∧
    readRef (sortedCopies nameLe st babyRef currentRef).1 currentRef = readRef st currentRef ∧
    readRef (sortedCopies nameLe st babyRef currentRef).1
        (sortedCopies nameLe st babyRef currentRef).2.1 =
      sortJS nameLe (readRef st babyRef) ∧
    readRef (sortedCopies nameLe st babyRef currentRef).1
        (sortedCopies nameLe st babyRef currentRef).2.2 =
      sortJS nameLe (readRef st currentRef) := by
  simp only [sortedCopies]
  set b := readRef st babyRef with hbdef
  set st1 := writeRef (alloc st b).1 (alloc st b).2
    (sortJS nameLe (readRef (alloc st b).1 (alloc st b).2)) with hst1
  set c := readRef st1 currentRef with hcdef
  have hfresh1 : (alloc st b).2 = st.arrays.length := rfl
  have hlen1 : st1.arrays.length = st.arrays.length + 1 := by
    simp [hst1, length_writeRef, alloc]
  have hfresh2 : (alloc st1 c).2 = st.arrays.length + 1 := by
    simp [alloc, hlen1]
  have hread1 : ∀ j, j < st.arrays.length → readRef st1 j = readRef st j := by
    intro j hj
    rw [hst1, readRef_writeRef_ne _ _ _ _ (by omega), readRef_alloc _ _ _ hj]
  have hst1baby : readRef st1 babyRef = readRef st babyRef := hread1 babyRef hb
  have hst1cur : readRef st1 currentRef = readRef st currentRef := hread1 currentRef hc
  have hst1sorted : readRef st1 (alloc st b).2 = sortJS nameLe b := by
    rw [hst1, readRef_writeRef_self, readRef_alloc_fresh]
    simp [alloc]
  refine ⟨?_, ?_, ?_, ?_⟩
  · rw [readRef_writeRef_ne _ _ _ _ (by omega), readRef_alloc _ _ _ (by omega), hst1baby]
  · rw [readRef_writeRef_ne _ _ _ _ (by omega), readRef_alloc _ _ _ (by omega), hst1cur]
  · rw [readRef_writeRef_ne _ _ _ _ (by omega), readRef_alloc _ _ _ (by omega), hst1sorted]
  · rw [readRef_writeRef_self _ _ _ (by simp [alloc, hlen1]), readRef_alloc_fresh, hcdef,
      hst1cur]

/-- Witness for C10 at a concrete store of two arrays. -/
theorem spec_c10_witness :
    readRef (sortedCopies nameLeW storeW 0 1).1 0 = readRef storeW 0 ∧
    readRef (sortedCopies nameLeW storeW 0 1).1 1 = readRef storeW 1 ∧
    readRef (sortedCopies nameLeW storeW 0 1).1 (sortedCopies nameLeW storeW 0 1).2.1 =
      sortJS nameLeW (readRef storeW 0) ∧
    readRef (sortedCopies nameLeW storeW 0 1).1 (sortedCopies nameLeW storeW 0 1).2.2 =
      sortJS nameLeW (readRef storeW 1) :=
  spec_c10 nameLeW storeW 0 1 (by decide) (by decide)

end ImageProcessor
